import Mathlib

/-!
Verification development for the SQL Query Assistant
(`client_for_multi_server/main.py`).

The file shallowly embeds the tool-use conversation loops
(`get_table_info`, `process_query`), the result-shaping function
(`format_sql_result`), and the run body of `main`, and proves the
specified properties about them.

Modelling conventions:
* The LLM gateway (`bedrock_client.converse`) is modelled as a script:
  a list of `GatewayResponse` values consumed one per call.  An exhausted
  script models an unavailable gateway and yields an error outcome.
* The tool executor (`mcp_client.call_tool`) is modelled as a pure
  function returning `Except String ToolCallResult`; an `Except.error`
  models a raised exception.
* Each loop returns the trace of external calls it made (`Event` list)
  together with either an error (a propagated Python exception) or its
  normal result and the final transcript, so the theorems can speak
  about transcript growth and call ordering.
* Python strings are Lean `String`s; a Python `dict` used as a tool
  input is an association list.
-/

/-- A `{"text": ...}` content item, as used inside `toolResult` blocks and
tool executor results. -/
structure TextItem where
  text : String
deriving Repr, DecidableEq

/-- A `toolUse` block of an assistant message:
`{toolUseId, name, input}`; the input is a JSON object modelled as an
association list. -/
structure ToolUseBlock where
  toolUseId : String
  name : String
  input : List (String × String)
deriving Repr, DecidableEq

/-- A `toolResult` block of a user message: `{toolUseId, content}`. -/
structure ToolResultBlock where
  toolUseId : String
  content : List TextItem
deriving Repr, DecidableEq

/-- One content block of a message: text, a tool-use request, or a tool
result. -/
inductive ContentBlock where
  | text (s : String)
  | toolUse (t : ToolUseBlock)
  | toolResult (r : ToolResultBlock)
deriving Repr, DecidableEq

/-- Message role. -/
inductive Role where
  | user
  | assistant
deriving Repr, DecidableEq

/-- A transcript message: `{"role": ..., "content": [...]}`. -/
structure Message where
  role : Role
  content : List ContentBlock
deriving Repr, DecidableEq

/-- One `converse` response: the stop reason together with
`response['output']['message']`. -/
structure GatewayResponse where
  stopReason : String
  message : Message
deriving Repr, DecidableEq

/-- The result object returned by `mcp_client.call_tool`: its `content`
attribute is a sequence of text items. -/
structure ToolCallResult where
  content : List TextItem
deriving Repr, DecidableEq

deriving instance DecidableEq for Except

/-- The tool executor: `mcp_client.call_tool(tool_name, tool_input)`,
as a pure function; `Except.error` models a raised exception. -/
abbrev Executor := String → List (String × String) → Except String ToolCallResult

/-- An externally observable call made by a loop: a gateway call
(recording the transcript sent) or a tool executor call (recording name,
input, and the executor's answer). -/
inductive Event where
  | gatewayCall (messages : List Message)
  | toolCall (name : String) (input : List (String × String))
      (result : Except String ToolCallResult)
deriving Repr, DecidableEq

/-- `true` exactly on gateway-call events. -/
def Event.isGatewayCall : Event → Bool
  | .gatewayCall _ => true
  | _ => false

/-- `true` exactly on tool-executor-call events. -/
def Event.isToolCall : Event → Bool
  | .toolCall _ _ _ => true
  | _ => false

/-- The `toolUse` payload of a content block, when present
(`'toolUse' in tool_request`). -/
def ContentBlock.toolUseOf : ContentBlock → Option ToolUseBlock
  | .toolUse t => some t
  | _ => none

/-- The `toolUse` blocks of an assistant message's content, in order. -/
def toolUses (blocks : List ContentBlock) : List ToolUseBlock :=
  blocks.filterMap ContentBlock.toolUseOf

/-- The user message the loops append for one tool result:
`{"role": "user", "content": [{"toolResult": {"toolUseId": ..., "content": [{"text": ...}]}}]}`. -/
def toolResultMessage (toolUseId text : String) : Message :=
  { role := .user,
    content := [.toolResult { toolUseId := toolUseId, content := [{ text := text }] }] }

/-- The text of the first item of an executor result
(`tool_result.content[0].text`), defaulting to `""` on an empty list
(the real code raises there; the loops below return an error in that
case before this default could be observed). -/
def firstText (r : ToolCallResult) : String :=
  match r.content with
  | [] => ""
  | c :: _ => c.text

/-- The inner `for tool_request in tool_requests` loop of
`get_table_info` (main.py lines 59-77): for each `toolUse` block, call
the executor, remember `tool_result.content[0].text` as the running
`table_info`, and append a single-result user message to the transcript.
An executor failure or an empty result content list ends the whole loop
step with an error (the Python exception propagates). -/
def runToolRequestsSchema (callTool : Executor) :
    List ContentBlock → List Message → String → List Event →
    List Event × Except String (List Message × String)
  | [], messages, tableInfo, events => (events, .ok (messages, tableInfo))
  | b :: bs, messages, tableInfo, events =>
    match b.toolUseOf with
    | none => runToolRequestsSchema callTool bs messages tableInfo events
    | some t =>
      let r := callTool t.name t.input
      let events := events ++ [.toolCall t.name t.input r]
      match r with
      | .error e => (events, .error e)
      | .ok res =>
        match res.content with
        | [] => (events, .error "IndexError: list index out of range")
        | c :: _ =>
          runToolRequestsSchema callTool bs
            (messages ++ [toolResultMessage t.toolUseId c.text]) c.text events

/-- The `while True` loop of `get_table_info` (main.py lines 43-77),
recursing on the gateway script: call `converse`; if the stop reason is
not `tool_use`, stop (without appending the assistant message);
otherwise append the assistant message and process its tool requests. -/
def get_table_info_loop (callTool : Executor) :
    List GatewayResponse → List Message → String → List Event →
    List Event × Except String (String × List Message)
  | [], _, _, events => (events, .error "gateway unavailable")
  | r :: rest, messages, tableInfo, events =>
    let events := events ++ [.gatewayCall messages]
    if r.stopReason ≠ "tool_use" then
      (events, .ok (tableInfo, messages))
    else
      match runToolRequestsSchema callTool r.message.content
          (messages ++ [r.message]) tableInfo events with
      | (events1, .error e) => (events1, .error e)
      | (events1, .ok (messages1, tableInfo1)) =>
        get_table_info_loop callTool rest messages1 tableInfo1 events1

/-- The initial user message of `get_table_info`. -/
def initialSchemaMessage (query_request : String) : Message :=
  { role := .user,
    content := [.text ("다음 요청과 관련된 테이블 정보를 조회해주세요: " ++ query_request)] }

/-- `get_table_info(mcp_client, bedrock_client, tools, query_request)`
(main.py lines 13-79): run the loop from a one-message transcript with
`table_info = ""`, and return the final `table_info` together with the
final transcript and the trace of external calls. -/
def get_table_info (callTool : Executor) (script : List GatewayResponse)
    (query_request : String) :
    List Event × Except String (String × List Message) :=
  get_table_info_loop callTool script [initialSchemaMessage query_request] "" []

/-- The inner `for tool_request in tool_requests` loop of
`process_query` (main.py lines 129-165).  It differs from the schema
variant in that it first displays `tool_input['sql']` (a missing key
raises, modelled as an error before any executor call) and keeps no
running `table_info`. -/
def runToolRequestsQuery (callTool : Executor) :
    List ContentBlock → List Message → List Event →
    List Event × Except String (List Message)
  | [], messages, events => (events, .ok messages)
  | b :: bs, messages, events =>
    match b.toolUseOf with
    | none => runToolRequestsQuery callTool bs messages events
    | some t =>
      match List.lookup "sql" t.input with
      | none => (events, .error "KeyError: sql")
      | some _ =>
        let r := callTool t.name t.input
        let events := events ++ [.toolCall t.name t.input r]
        match r with
        | .error e => (events, .error e)
        | .ok res =>
          match res.content with
          | [] => (events, .error "IndexError: list index out of range")
          | c :: _ =>
            runToolRequestsQuery callTool bs
              (messages ++ [toolResultMessage t.toolUseId c.text]) events

/-- The `while True` loop of `process_query` (main.py lines 105-165). -/
def process_query_loop (callTool : Executor) :
    List GatewayResponse → List Message → List Event →
    List Event × Except String (List Message)
  | [], _, events => (events, .error "gateway unavailable")
  | r :: rest, messages, events =>
    let events := events ++ [.gatewayCall messages]
    if r.stopReason ≠ "tool_use" then
      (events, .ok messages)
    else
      match runToolRequestsQuery callTool r.message.content
          (messages ++ [r.message]) events with
      | (events1, .error e) => (events1, .error e)
      | (events1, .ok messages1) =>
        process_query_loop callTool rest messages1 events1

/-- The initial user message of `process_query`. -/
def initialQueryMessage (prompt : String) : Message :=
  { role := .user, content := [.text prompt] }

/-- `process_query(prompt, bedrock_client, mcp_client, tools, system_prompt)`
(main.py lines 93-165): an empty (falsy) prompt returns immediately with
no transcript and no external call; otherwise the loop runs from a
one-message transcript.  The system prompt is part of each gateway
request and is not otherwise observed. -/
def process_query (callTool : Executor) (script : List GatewayResponse)
    (prompt _system_prompt : String) :
    List Event × Except String (List Message) :=
  if prompt = "" then ([], .ok [])
  else process_query_loop callTool script [initialQueryMessage prompt] []

/-! ## Result shaping: `format_sql_result`

`format_sql_result` calls the external `json.loads` and `pd.DataFrame`.
Modelled from the spec: `json.loads` is embedded below as a JSON parser
(`jsonParse`) following the JSON grammar accepted by Python's `json`
module, and `pd.DataFrame` on a list of records is embedded as
`mkDataFrame` (columns are the record keys in order of first appearance,
rows are the records in order).  `pd.DataFrame` on a non-empty array
whose elements are not all objects is external library behaviour outside
the spec's "array of records" case and is left abstract as the
`FormatResult.unmodelled` outcome. -/

/-- JSON values, as produced by `json.loads`.  A number is kept as its
lexeme (its numeric interpretation is irrelevant here); an object keeps
Python `dict` semantics: insertion-ordered keys, duplicate keys resolved
last-wins. -/
inductive Json where
  | null
  | bool (b : Bool)
  | num (lit : String)
  | str (s : String)
  | arr (elems : List Json)
  | obj (members : List (String × Json))
deriving Repr

/-- The double-quote character. -/
def quoteChar : Char := Char.ofNat 34

/-- The backslash character. -/
def backslashChar : Char := Char.ofNat 92

/-- The opening-brace character. -/
def lbraceChar : Char := Char.ofNat 123

/-- The closing-brace character. -/
def rbraceChar : Char := Char.ofNat 125

/-- JSON whitespace (the characters skipped by Python's `json` scanner). -/
def jsonWs (c : Char) : Bool :=
  c = ' ' || c = '\t' || c = '\n' || c = '\r'

/-- Drop leading JSON whitespace. -/
def skipWs : List Char → List Char
  | [] => []
  | c :: cs => if jsonWs c then skipWs cs else c :: cs

/-- Value of a hexadecimal digit. -/
def hexVal (c : Char) : Option Nat :=
  if '0' ≤ c ∧ c ≤ '9' then some (c.toNat - 48)
  else if 'a' ≤ c ∧ c ≤ 'f' then some (c.toNat - 87)
  else if 'A' ≤ c ∧ c ≤ 'F' then some (c.toNat - 55)
  else none

/-- Four hexadecimal digits, as in a `\uXXXX` escape. -/
def hex4 : List Char → Option (Nat × List Char)
  | a :: b :: c :: d :: rest =>
    match hexVal a, hexVal b, hexVal c, hexVal d with
    | some va, some vb, some vc, some vd =>
      some (((va * 16 + vb) * 16 + vc) * 16 + vd, rest)
    | _, _, _, _ => none
  | _ => none

/-- Split off a run of leading decimal digits. -/
def takeDigits : List Char → List Char × List Char
  | [] => ([], [])
  | c :: cs =>
    if c.isDigit then
      let (ds, rest) := takeDigits cs
      (c :: ds, rest)
    else ([], c :: cs)

/-- Scan a JSON string body (after the opening quote), handling the JSON
escapes.  A high/low `\u` surrogate pair is combined; a lone surrogate
(a legal Python output not representable as a Lean `Char`) degrades to
`Char.ofNat` on the raw code point. -/
def parseStringBody : Nat → List Char → List Char → Except String (String × List Char)
  | 0, _, _ => .error "out of fuel"
  | fuel + 1, acc, cs =>
    match cs with
    | [] => .error "Unterminated string"
    | c :: cs1 =>
      if c = quoteChar then .ok (String.mk acc.reverse, cs1)
      else if c = backslashChar then
        match cs1 with
        | [] => .error "Unterminated string"
        | e :: cs2 =>
          if e = quoteChar then parseStringBody fuel (quoteChar :: acc) cs2
          else if e = backslashChar then parseStringBody fuel (backslashChar :: acc) cs2
          else if e = '/' then parseStringBody fuel ('/' :: acc) cs2
          else if e = 'b' then parseStringBody fuel (Char.ofNat 8 :: acc) cs2
          else if e = 'f' then parseStringBody fuel (Char.ofNat 12 :: acc) cs2
          else if e = 'n' then parseStringBody fuel ('\n' :: acc) cs2
          else if e = 'r' then parseStringBody fuel ('\r' :: acc) cs2
          else if e = 't' then parseStringBody fuel ('\t' :: acc) cs2
          else if e = 'u' then
            match hex4 cs2 with
            | none => .error "Invalid \\uXXXX escape"
            | some (n, cs3) =>
              if 0xD800 ≤ n ∧ n ≤ 0xDBFF then
                match cs3 with
                | b1 :: u :: cs4 =>
                  if b1 = backslashChar ∧ u = 'u' then
                    match hex4 cs4 with
                    | some (m, cs5) =>
                      if 0xDC00 ≤ m ∧ m ≤ 0xDFFF then
                        parseStringBody fuel
                          (Char.ofNat (0x10000 + (n - 0xD800) * 0x400 + (m - 0xDC00)) :: acc) cs5
                      else parseStringBody fuel (Char.ofNat n :: acc) cs3
                    | none => parseStringBody fuel (Char.ofNat n :: acc) cs3
                  else parseStringBody fuel (Char.ofNat n :: acc) cs3
                | _ => parseStringBody fuel (Char.ofNat n :: acc) cs3
              else parseStringBody fuel (Char.ofNat n :: acc) cs3
          else .error "Invalid escape"
      else if c.toNat < 32 then .error "Invalid control character"
      else parseStringBody fuel (c :: acc) cs1

/-- Scan a JSON number per the scanner regular expression
`-?(0|[1-9][0-9]*)(\.[0-9]+)?([eE][+-]?[0-9]+)?`, returning the matched
lexeme (longest match) and the rest. -/
def parseNumber (cs : List Char) : Except String (String × List Char) :=
  let (sign, cs1) :=
    match cs with
    | c :: rest => if c = '-' then ([c], rest) else ([], cs)
    | [] => ([], cs)
  match cs1 with
  | [] => .error "Expecting value"
  | c :: rest =>
    if c = '0' then
      let intPart := sign ++ [c]
      let (fracPart, cs2) := numFracExp rest
      .ok (String.mk (intPart ++ fracPart), cs2)
    else if c.isDigit then
      let (ds, cs2) := takeDigits rest
      let intPart := sign ++ c :: ds
      let (fracPart, cs3) := numFracExp cs2
      .ok (String.mk (intPart ++ fracPart), cs3)
    else .error "Expecting value"
where
  /-- The optional fraction and exponent groups of the number regular
  expression; each is consumed only when it fully matches. -/
  numFracExp (cs : List Char) : List Char × List Char :=
    let (frac, cs1) :=
      match cs with
      | c :: rest =>
        if c = '.' then
          match takeDigits rest with
          | ([], _) => ([], cs)
          | (ds, cs2) => (c :: ds, cs2)
        else ([], cs)
      | [] => ([], cs)
    let (expo, cs2) :=
      match cs1 with
      | c :: rest =>
        if c = 'e' ∨ c = 'E' then
          match rest with
          | s :: rest1 =>
            if s = '+' ∨ s = '-' then
              match takeDigits rest1 with
              | ([], _) => ([], cs1)
              | (ds, cs3) => (c :: s :: ds, cs3)
            else
              match takeDigits rest with
              | ([], _) => ([], cs1)
              | (ds, cs3) => (c :: ds, cs3)
          | [] => ([], cs1)
        else ([], cs1)
      | [] => ([], cs1)
    (frac ++ expo, cs2)

/-- Insert a key into an object under Python `dict` semantics: an
existing key keeps its position and takes the new value; a new key is
appended. -/
def dictInsert (m : List (String × Json)) (k : String) (v : Json) :
    List (String × Json) :=
  if m.any (fun kv => kv.1 = k) then
    m.map (fun kv => if kv.1 = k then (k, v) else kv)
  else m ++ [(k, v)]

/-- `List.isPrefixOf`-style literal test used for the JSON keyword
constants. -/
def dropLit (lit : String) (cs : List Char) : Option (List Char) :=
  if lit.data.isPrefixOf cs then some (cs.drop lit.data.length) else none

mutual

/-- Parse one JSON value (fueled recursive-descent scanner mirroring the
grammar accepted by `json.loads`, including its `NaN`/`Infinity`
extensions). -/
def parseJsonValue : Nat → List Char → Except String (Json × List Char)
  | 0, _ => .error "out of fuel"
  | fuel + 1, cs =>
    match cs with
    | [] => .error "Expecting value"
    | c :: cs1 =>
      if c = quoteChar then
        match parseStringBody (cs1.length + 1) [] cs1 with
        | .ok (s, rest) => .ok (.str s, rest)
        | .error e => .error e
      else if c = lbraceChar then parseObjectMembers fuel (skipWs cs1) []
      else if c = '[' then parseArrayItems fuel (skipWs cs1) []
      else
        match dropLit "null" cs with
        | some rest => .ok (.null, rest)
        | none =>
        match dropLit "true" cs with
        | some rest => .ok (.bool true, rest)
        | none =>
        match dropLit "false" cs with
        | some rest => .ok (.bool false, rest)
        | none =>
        match dropLit "NaN" cs with
        | some rest => .ok (.num "NaN", rest)
        | none =>
        match dropLit "Infinity" cs with
        | some rest => .ok (.num "Infinity", rest)
        | none =>
        match dropLit "-Infinity" cs with
        | some rest => .ok (.num "-Infinity", rest)
        | none =>
        match parseNumber cs with
        | .ok (lit, rest) => .ok (.num lit, rest)
        | .error e => .error e

/-- Parse the items of an array after its opening bracket (leading
whitespace already skipped), accumulating parsed elements. -/
def parseArrayItems : Nat → List Char → List Json → Except String (Json × List Char)
  | 0, _, _ => .error "out of fuel"
  | fuel + 1, cs, acc =>
    match cs with
    | [] => .error "Expecting value"
    | c :: cs1 =>
      if c = ']' ∧ acc.isEmpty then .ok (.arr [], cs1)
      else
        match parseJsonValue fuel cs with
        | .error e => .error e
        | .ok (v, rest) =>
          match skipWs rest with
          | [] => .error "Expecting delimiter"
          | d :: rest1 =>
            if d = ']' then .ok (.arr (acc ++ [v]), rest1)
            else if d = ',' then parseArrayItems fuel (skipWs rest1) (acc ++ [v])
            else .error "Expecting delimiter"

/-- Parse the members of an object after its opening brace (leading
whitespace already skipped), accumulating members with `dict` insertion
semantics. -/
def parseObjectMembers : Nat → List Char → List (String × Json) →
    Except String (Json × List Char)
  | 0, _, _ => .error "out of fuel"
  | fuel + 1, cs, acc =>
    match cs with
    | [] => .error "Expecting property name"
    | c :: cs1 =>
      if c = rbraceChar ∧ acc.isEmpty then .ok (.obj [], cs1)
      else if c = quoteChar then
        match parseStringBody (cs1.length + 1) [] cs1 with
        | .error e => .error e
        | .ok (k, rest) =>
          match skipWs rest with
          | colon :: rest1 =>
            if colon = ':' then
              match parseJsonValue fuel (skipWs rest1) with
              | .error e => .error e
              | .ok (v, rest2) =>
                let acc1 := dictInsert acc k v
                match skipWs rest2 with
                | [] => .error "Expecting delimiter"
                | d :: rest3 =>
                  if d = rbraceChar then .ok (.obj acc1, rest3)
                  else if d = ',' then
                    parseObjectMembers fuel (skipWs rest3) acc1
                  else .error "Expecting delimiter"
            else .error "Expecting colon"
          | [] => .error "Expecting colon"
      else .error "Expecting property name"

end

/-- `json.loads`: skip leading whitespace, parse one value, require that
only whitespace follows. -/
def jsonParse (s : String) : Except String Json :=
  match parseJsonValue (s.data.length + 2) (skipWs s.data) with
  | .error e => .error e
  | .ok (v, rest) =>
    match skipWs rest with
    | [] => .ok v
    | _ => .error "Extra data"

/-- The members of a JSON object, `none` on any other value
(`isinstance`-style test used for the record check). -/
def Json.asObj : Json → Option (List (String × Json))
  | .obj m => some m
  | _ => none

/-- All array elements as records (objects); `none` when some element is
not an object. -/
def allRecords (elems : List Json) : Option (List (List (String × Json))) :=
  elems.mapM Json.asObj

/-- A tabular structure: named columns and rows of optional cells
(a missing key yields an empty cell, pandas `NaN`). -/
structure DataFrame where
  columns : List String
  rows : List (List (Option Json))
deriving Repr

/-- The column set `pd.DataFrame` derives from a list of records: the
record keys in order of first appearance. -/
def recordColumns (recs : List (List (String × Json))) : List String :=
  recs.foldl
    (fun cols r =>
      r.foldl (fun cols1 kv => if cols1.contains kv.1 then cols1 else cols1 ++ [kv.1]) cols)
    []

/-- Modelled from the spec: `pd.DataFrame` applied to a list of records
(its behaviour in the spec's "JSON array of uniform records" case):
ordered rows, one per record, aligned on the derived column set. -/
def mkDataFrame (recs : List (List (String × Json))) : DataFrame :=
  let cols := recordColumns recs
  { columns := cols,
    rows := recs.map (fun r => cols.map (fun c => List.lookup c r)) }

/-- The value `format_sql_result` produces: a tabular structure, the
original text, Python `None` (the function's implicit fall-through
return), or a `pd.DataFrame` built from a non-empty array that is not a
list of records (external library behaviour outside the spec's record
case, left abstract). -/
inductive FormatResult where
  | table (df : DataFrame)
  | text (s : String)
  | none
  | unmodelled
deriving Repr

/-- `format_sql_result(result_text)` (main.py lines 81-91): try
`json.loads`; on a non-empty list build a `pd.DataFrame` and return it;
when parsing raises, the bare `except` returns the original text; in the
remaining cases the `try` body falls through and the function returns
`None`. -/
def format_sql_result (result_text : String) : FormatResult :=
  match jsonParse result_text with
  | .error _ => .text result_text
  | .ok data =>
    match data with
    | .arr elems =>
      if 0 < elems.length then
        match allRecords elems with
        | some recs => .table (mkDataFrame recs)
        | Option.none => .unmodelled
      else .none
    | _ => .none

/-! ## The run body of `main` -/

/-- The cooperative-cancellation session state
(`st.session_state.is_running`, `st.session_state.should_cancel`). -/
structure SessionState where
  is_running : Bool
  should_cancel : Bool
deriving Repr, DecidableEq

/-- An externally observable action of one run of the `main` body:
enumerating the tool catalog (`mcp_client.list_all_tools`), warning that
the run was cancelled, or a loop event (gateway or executor call). -/
inductive RunEvent where
  | listTools
  | warnCancelled
  | loopEvent (e : Event)
deriving Repr, DecidableEq

/-- `true` exactly on gateway-call run events. -/
def RunEvent.isGatewayCall : RunEvent → Bool
  | .loopEvent e => e.isGatewayCall
  | _ => false

/-- `true` exactly on tool-executor-call run events. -/
def RunEvent.isToolCall : RunEvent → Bool
  | .loopEvent e => e.isToolCall
  | _ => false

/-- The system prompt `main` builds for `process_query` from the
resolved schema description. -/
def mkSystemPrompt (table_info : String) : String :=
  "다음은 요청하신 쿼리와 관련된 테이블 구조입니다:\n\n" ++ table_info ++
  "\n\n위 테이블 구조를 참고하여 사용자의 요청에 맞는 SQL SELECT 쿼리를 생성해주세요.\n" ++
  "생성된 쿼리는 실제 실행 가능해야 합니다.\n" ++
  "WHERE 절이나 조건문에는 적절한 임의의 값을 사용해주세요. (예: id = '123', date = '2024-03-21' 등)\n" ++
  "CREATE나 INSERT 문은 생성하지 말고, SELECT 문만 작성해주세요.\n" ++
  "결과는 반드시 JSON 배열 형태로 반환해주세요."

/-- The run body of `main` (main.py lines 219-269), given the two
gateway scripts the run will consume.  When `is_running` holds and the
query text is truthy, the tool catalog is enumerated, then the
cancellation flag is checked before schema resolution and again before
query execution; the flag cannot change within one script run, so it is
a constant of the model.  An error from `get_table_info` propagates and
ends the run. -/
def run_body (callTool : Executor) (schemaScript queryScript : List GatewayResponse)
    (state : SessionState) (query : String) : List RunEvent :=
  if state.is_running ∧ query ≠ "" then
    let events0 := [RunEvent.listTools]
    if state.should_cancel then events0 ++ [.warnCancelled]
    else
      let (evs1, res1) := get_table_info callTool schemaScript query
      let events1 := events0 ++ evs1.map .loopEvent
      match res1 with
      | .error _ => events1
      | .ok (table_info, _) =>
        if state.should_cancel then events1 ++ [.warnCancelled]
        else
          let (evs2, _) := process_query callTool queryScript query
            (mkSystemPrompt table_info)
          events1 ++ evs2.map .loopEvent
  else []

/-! ## Derived observations used by the theorems -/

/-- `true` exactly on `toolResult` content blocks. -/
def ContentBlock.isToolResult : ContentBlock → Bool
  | .toolResult _ => true
  | _ => false

/-- `true` exactly on `toolResult` blocks answering the given
`toolUseId`. -/
def ContentBlock.isResultFor (i : String) : ContentBlock → Bool
  | .toolResult r => r.toolUseId == i
  | _ => false

/-- How many `toolResult` blocks a message carries. -/
def Message.toolResultCount (m : Message) : Nat :=
  (m.content.filter ContentBlock.isToolResult).length

/-- Total number of `toolResult` blocks in a transcript. -/
def transcriptToolResultCount (ms : List Message) : Nat :=
  (ms.map Message.toolResultCount).sum

/-- Number of messages of a transcript carrying two or more `toolResult`
blocks (messages that bundle several results). -/
def bundledResultMessageCount (ms : List Message) : Nat :=
  (ms.filter fun m => 2 ≤ m.toolResultCount).length

/-- Number of `toolResult` blocks in a transcript answering the given
`toolUseId`. -/
def countMatchingResults (i : String) (ms : List Message) : Nat :=
  (ms.map fun m => (m.content.filter (ContentBlock.isResultFor i)).length).sum

/-- The executor-call events of one fully successful pass over the
`toolUse` blocks `ts`, where `res` gives each tool's answer. -/
def toolCallEvents (res : ToolUseBlock → ToolCallResult) (ts : List ToolUseBlock) :
    List Event :=
  ts.map fun t => .toolCall t.name t.input (.ok (res t))

/-- The user messages appended by one fully successful pass over the
`toolUse` blocks `ts`: one single-result message per tool, in order. -/
def toolResultMessages (res : ToolUseBlock → ToolCallResult) (ts : List ToolUseBlock) :
    List Message :=
  ts.map fun t => toolResultMessage t.toolUseId (firstText (res t))

/-- The executor succeeds, with a non-empty result content, on every
tool of `ts`, answering as `res` says. -/
def ExecOk (callTool : Executor) (res : ToolUseBlock → ToolCallResult)
    (ts : List ToolUseBlock) : Prop :=
  ∀ t ∈ ts, callTool t.name t.input = .ok (res t) ∧ (res t).content ≠ []

/-- `ExecOk` plus the `process_query` requirement that each tool input
carries an `"sql"` key (read for display before the executor call). -/
def ExecOkQ (callTool : Executor) (res : ToolUseBlock → ToolCallResult)
    (ts : List ToolUseBlock) : Prop :=
  ∀ t ∈ ts, (List.lookup "sql" t.input).isSome ∧
    callTool t.name t.input = .ok (res t) ∧ (res t).content ≠ []

/-- The text a successful executor-call event contributed as the running
`table_info`, when any. -/
def Event.stepTextOf : Event → Option String
  | .toolCall _ _ (.ok res) =>
    match res.content with
    | [] => Option.none
    | c :: _ => some c.text
  | _ => Option.none

/-- The first text of the last successful executor call of a trace,
defaulting to `d` when no executor call contributed one. -/
def lastToolText (events : List Event) (d : String) : String :=
  events.foldl
    (fun acc e =>
      match e.stepTextOf with
      | some t => t
      | Option.none => acc)
    d

theorem lastToolText_append (l1 l2 : List Event) (d : String) :
    lastToolText (l1 ++ l2) d = lastToolText l2 (lastToolText l1 d) := by
  simp [lastToolText, List.foldl_append]

theorem lastToolText_no_tool : ∀ (evs : List Event) (d : String),
    (∀ e ∈ evs, e.isToolCall = false) → lastToolText evs d = d := by
  intro evs
  induction evs with
  | nil => intro d _; rfl
  | cons e rest ih =>
    intro d h
    have he : e.isToolCall = false := h e (List.mem_cons_self e rest)
    have hrest : ∀ x ∈ rest, x.isToolCall = false :=
      fun x hx => h x (List.mem_cons_of_mem e hx)
    cases e with
    | gatewayCall ms =>
      simpa [lastToolText, Event.stepTextOf] using ih d hrest
    | toolCall n i r => simp [Event.isToolCall] at he

/-- Characterization of the inner tool loop of `get_table_info` on a
fully successful pass: it records one executor call per `toolUse` block,
appends one single-result user message per `toolUse` block, in order,
and leaves as running `table_info` the first text of the last result. -/
theorem runToolRequestsSchema_ok (callTool : Executor)
    (res : ToolUseBlock → ToolCallResult) :
    ∀ (blocks : List ContentBlock) (messages : List Message) (tableInfo : String)
      (events : List Event), ExecOk callTool res (toolUses blocks) →
    runToolRequestsSchema callTool blocks messages tableInfo events =
      (events ++ toolCallEvents res (toolUses blocks),
       .ok (messages ++ toolResultMessages res (toolUses blocks),
            List.foldl (fun _ t => firstText (res t)) tableInfo (toolUses blocks))) := by
  intro blocks
  induction blocks with
  | nil => intro messages tableInfo events _; simp [runToolRequestsSchema, toolUses,
      toolCallEvents, toolResultMessages]
  | cons b bs ih =>
    intro messages tableInfo events hexec
    cases b with
    | text s =>
      have : toolUses (ContentBlock.text s :: bs) = toolUses bs := by
        simp [toolUses, ContentBlock.toolUseOf]
      rw [this] at hexec ⊢
      simpa [runToolRequestsSchema, ContentBlock.toolUseOf] using
        ih messages tableInfo events hexec
    | toolResult r =>
      have : toolUses (ContentBlock.toolResult r :: bs) = toolUses bs := by
        simp [toolUses, ContentBlock.toolUseOf]
      rw [this] at hexec ⊢
      simpa [runToolRequestsSchema, ContentBlock.toolUseOf] using
        ih messages tableInfo events hexec
    | toolUse t =>
      have hts : toolUses (ContentBlock.toolUse t :: bs) = t :: toolUses bs := by
        simp [toolUses, ContentBlock.toolUseOf]
      rw [hts] at hexec
      have ht := hexec t (List.mem_cons_self t (toolUses bs))
      have hbs : ExecOk callTool res (toolUses bs) :=
        fun x hx => hexec x (List.mem_cons_of_mem t hx)
      obtain ⟨hcall, hne⟩ := ht
      cases hres : (res t).content with
      | nil => exact absurd hres hne
      | cons c cs =>
        have hfirst : firstText (res t) = c.text := by simp [firstText, hres]
        rw [hts]
        simp only [runToolRequestsSchema, ContentBlock.toolUseOf, hcall, hres,
          toolCallEvents, toolResultMessages, List.map_cons, List.foldl_cons]
        rw [ih (messages ++ [toolResultMessage t.toolUseId c.text]) c.text
          (events ++ [Event.toolCall t.name t.input (Except.ok (res t))]) hbs]
        simp [toolCallEvents, toolResultMessages, hfirst]

/-- Characterization of the inner tool loop of `process_query` on a
fully successful pass: same shape as the schema variant. -/
theorem runToolRequestsQuery_ok (callTool : Executor)
    (res : ToolUseBlock → ToolCallResult) :
    ∀ (blocks : List ContentBlock) (messages : List Message) (events : List Event),
    ExecOkQ callTool res (toolUses blocks) →
    runToolRequestsQuery callTool blocks messages events =
      (events ++ toolCallEvents res (toolUses blocks),
       .ok (messages ++ toolResultMessages res (toolUses blocks))) := by
  intro blocks
  induction blocks with
  | nil => intro messages events _; simp [runToolRequestsQuery, toolUses,
      toolCallEvents, toolResultMessages]
  | cons b bs ih =>
    intro messages events hexec
    cases b with
    | text s =>
      have : toolUses (ContentBlock.text s :: bs) = toolUses bs := by
        simp [toolUses, ContentBlock.toolUseOf]
      rw [this] at hexec ⊢
      simpa [runToolRequestsQuery, ContentBlock.toolUseOf] using
        ih messages events hexec
    | toolResult r =>
      have : toolUses (ContentBlock.toolResult r :: bs) = toolUses bs := by
        simp [toolUses, ContentBlock.toolUseOf]
      rw [this] at hexec ⊢
      simpa [runToolRequestsQuery, ContentBlock.toolUseOf] using
        ih messages events hexec
    | toolUse t =>
      have hts : toolUses (ContentBlock.toolUse t :: bs) = t :: toolUses bs := by
        simp [toolUses, ContentBlock.toolUseOf]
      rw [hts] at hexec
      have ht := hexec t (List.mem_cons_self t (toolUses bs))
      have hbs : ExecOkQ callTool res (toolUses bs) :=
        fun x hx => hexec x (List.mem_cons_of_mem t hx)
      obtain ⟨hsql, hcall, hne⟩ := ht
      obtain ⟨sq, hsq⟩ := Option.isSome_iff_exists.mp hsql
      cases hres : (res t).content with
      | nil => exact absurd hres hne
      | cons c cs =>
        have hfirst : firstText (res t) = c.text := by simp [firstText, hres]
        rw [hts]
        simp only [runToolRequestsQuery, ContentBlock.toolUseOf, hsq, hcall, hres,
          toolCallEvents, toolResultMessages, List.map_cons]
        rw [ih (messages ++ [toolResultMessage t.toolUseId c.text])
          (events ++ [Event.toolCall t.name t.input (Except.ok (res t))]) hbs]
        simp [toolCallEvents, toolResultMessages, hfirst]

/-- Error propagation through the inner tool loop of `get_table_info`:
once the executor fails on the `toolUse` block `t`, the pass stops at
that call with the executor's error, after exactly the calls for the
preceding `toolUse` blocks plus the one failing call. -/
theorem runToolRequestsSchema_error (callTool : Executor)
    (res : ToolUseBlock → ToolCallResult) (t : ToolUseBlock) (e : String)
    (hfail : callTool t.name t.input = .error e) :
    ∀ (bs1 bs2 : List ContentBlock) (messages : List Message)
      (tableInfo : String) (events : List Event),
    ExecOk callTool res (toolUses bs1) →
    runToolRequestsSchema callTool (bs1 ++ ContentBlock.toolUse t :: bs2)
        messages tableInfo events =
      (events ++ toolCallEvents res (toolUses bs1) ++
        [.toolCall t.name t.input (.error e)], .error e) := by
  intro bs1
  induction bs1 with
  | nil =>
    intro bs2 messages tableInfo events _
    simp [runToolRequestsSchema, ContentBlock.toolUseOf, hfail, toolUses,
      toolCallEvents]
  | cons b bs ih =>
    intro bs2 messages tableInfo events hexec
    cases b with
    | text s =>
      have hts : toolUses (ContentBlock.text s :: bs) = toolUses bs := by
        simp [toolUses, ContentBlock.toolUseOf]
      rw [hts] at hexec
      simpa [runToolRequestsSchema, ContentBlock.toolUseOf] using
        ih bs2 messages tableInfo events hexec
    | toolResult r =>
      have hts : toolUses (ContentBlock.toolResult r :: bs) = toolUses bs := by
        simp [toolUses, ContentBlock.toolUseOf]
      rw [hts] at hexec
      simpa [runToolRequestsSchema, ContentBlock.toolUseOf] using
        ih bs2 messages tableInfo events hexec
    | toolUse u =>
      have hts : toolUses (ContentBlock.toolUse u :: bs) = u :: toolUses bs := by
        simp [toolUses, ContentBlock.toolUseOf]
      rw [hts] at hexec
      have hu := hexec u (List.mem_cons_self u (toolUses bs))
      have hbs : ExecOk callTool res (toolUses bs) :=
        fun x hx => hexec x (List.mem_cons_of_mem u hx)
      obtain ⟨hcall, hne⟩ := hu
      cases hres : (res u).content with
      | nil => exact absurd hres hne
      | cons c cs =>
        simp only [List.cons_append, runToolRequestsSchema, ContentBlock.toolUseOf,
          hcall, hres]
        rw [List.append_eq]
        rw [ih bs2 (messages ++ [toolResultMessage u.toolUseId c.text]) c.text
          (events ++ [Event.toolCall u.name u.input (Except.ok (res u))]) hbs]
        simp [hts, toolCallEvents]

/-- Error propagation through the inner tool loop of `process_query`:
same shape as the schema variant. -/
theorem runToolRequestsQuery_error (callTool : Executor)
    (res : ToolUseBlock → ToolCallResult) (t : ToolUseBlock) (e : String)
    (hsqlt : (List.lookup "sql" t.input).isSome)
    (hfail : callTool t.name t.input = .error e) :
    ∀ (bs1 bs2 : List ContentBlock) (messages : List Message) (events : List Event),
    ExecOkQ callTool res (toolUses bs1) →
    runToolRequestsQuery callTool (bs1 ++ ContentBlock.toolUse t :: bs2)
        messages events =
      (events ++ toolCallEvents res (toolUses bs1) ++
        [.toolCall t.name t.input (.error e)], .error e) := by
  obtain ⟨sq, hsq⟩ := Option.isSome_iff_exists.mp hsqlt
  intro bs1
  induction bs1 with
  | nil =>
    intro bs2 messages events _
    simp [runToolRequestsQuery, ContentBlock.toolUseOf, hsq, hfail, toolUses,
      toolCallEvents]
  | cons b bs ih =>
    intro bs2 messages events hexec
    cases b with
    | text s =>
      have hts : toolUses (ContentBlock.text s :: bs) = toolUses bs := by
        simp [toolUses, ContentBlock.toolUseOf]
      rw [hts] at hexec
      simpa [runToolRequestsQuery, ContentBlock.toolUseOf] using
        ih bs2 messages events hexec
    | toolResult r =>
      have hts : toolUses (ContentBlock.toolResult r :: bs) = toolUses bs := by
        simp [toolUses, ContentBlock.toolUseOf]
      rw [hts] at hexec
      simpa [runToolRequestsQuery, ContentBlock.toolUseOf] using
        ih bs2 messages events hexec
    | toolUse u =>
      have hts : toolUses (ContentBlock.toolUse u :: bs) = u :: toolUses bs := by
        simp [toolUses, ContentBlock.toolUseOf]
      rw [hts] at hexec
      have hu := hexec u (List.mem_cons_self u (toolUses bs))
      have hbs : ExecOkQ callTool res (toolUses bs) :=
        fun x hx => hexec x (List.mem_cons_of_mem u hx)
      obtain ⟨hsqlu, hcall, hne⟩ := hu
      obtain ⟨squ, hsqu⟩ := Option.isSome_iff_exists.mp hsqlu
      cases hres : (res u).content with
      | nil => exact absurd hres hne
      | cons c cs =>
        simp only [List.cons_append, runToolRequestsQuery, ContentBlock.toolUseOf,
          hsqu, hcall, hres]
        rw [List.append_eq]
        rw [ih bs2 (messages ++ [toolResultMessage u.toolUseId c.text])
          (events ++ [Event.toolCall u.name u.input (Except.ok (res u))]) hbs]
        simp [hts, toolCallEvents]

/-- A terminal gateway response (stop reason other than `tool_use`) ends
`get_table_info`'s loop at once: one more gateway call, no executor
call, the transcript unchanged (in particular the terminal assistant
message is not appended), and the current `table_info` returned. -/
theorem get_table_info_loop_stop (callTool : Executor) (r : GatewayResponse)
    (rest : List GatewayResponse) (messages : List Message) (tableInfo : String)
    (events : List Event) (h : r.stopReason ≠ "tool_use") :
    get_table_info_loop callTool (r :: rest) messages tableInfo events =
      (events ++ [.gatewayCall messages], .ok (tableInfo, messages)) := by
  simp [get_table_info_loop, h]

/-- A terminal gateway response ends `process_query`'s loop at once,
with the transcript unchanged. -/
theorem process_query_loop_stop (callTool : Executor) (r : GatewayResponse)
    (rest : List GatewayResponse) (messages : List Message)
    (events : List Event) (h : r.stopReason ≠ "tool_use") :
    process_query_loop callTool (r :: rest) messages events =
      (events ++ [.gatewayCall messages], .ok messages) := by
  simp [process_query_loop, h]

/-- One `tool_use` iteration of `get_table_info`'s loop, all executor
calls succeeding: the assistant message and then one single-result user
message per `toolUse` block are appended, in order, and all executor
calls happen between this gateway call and the next one. -/
theorem get_table_info_loop_tooluse (callTool : Executor)
    (res : ToolUseBlock → ToolCallResult) (r : GatewayResponse)
    (rest : List GatewayResponse) (messages : List Message) (tableInfo : String)
    (events : List Event) (h : r.stopReason = "tool_use")
    (hexec : ExecOk callTool res (toolUses r.message.content)) :
    get_table_info_loop callTool (r :: rest) messages tableInfo events =
      get_table_info_loop callTool rest
        (messages ++ [r.message] ++ toolResultMessages res (toolUses r.message.content))
        (List.foldl (fun _ t => firstText (res t)) tableInfo (toolUses r.message.content))
        (events ++ [.gatewayCall messages] ++
          toolCallEvents res (toolUses r.message.content)) := by
  simp only [get_table_info_loop, h, ne_eq, not_true_eq_false, if_false,
    ite_false]
  rw [runToolRequestsSchema_ok callTool res _ _ _ _ hexec]

/-- One `tool_use` iteration of `process_query`'s loop, all executor
calls succeeding: same shape as the schema variant. -/
theorem process_query_loop_tooluse (callTool : Executor)
    (res : ToolUseBlock → ToolCallResult) (r : GatewayResponse)
    (rest : List GatewayResponse) (messages : List Message)
    (events : List Event) (h : r.stopReason = "tool_use")
    (hexec : ExecOkQ callTool res (toolUses r.message.content)) :
    process_query_loop callTool (r :: rest) messages events =
      process_query_loop callTool rest
        (messages ++ [r.message] ++ toolResultMessages res (toolUses r.message.content))
        (events ++ [.gatewayCall messages] ++
          toolCallEvents res (toolUses r.message.content)) := by
  simp only [process_query_loop, h, ne_eq, not_true_eq_false, if_false,
    ite_false]
  rw [runToolRequestsQuery_ok callTool res _ _ _ hexec]

/-- An executor failure inside a `tool_use` iteration of
`get_table_info`'s loop ends the whole loop with that error: the trace
stops right at the failing call (no retry, no further gateway call). -/
theorem get_table_info_loop_toolfail (callTool : Executor)
    (res : ToolUseBlock → ToolCallResult) (r : GatewayResponse)
    (rest : List GatewayResponse) (messages : List Message) (tableInfo : String)
    (events : List Event) (t : ToolUseBlock) (e : String)
    (bs1 bs2 : List ContentBlock) (h : r.stopReason = "tool_use")
    (hcontent : r.message.content = bs1 ++ ContentBlock.toolUse t :: bs2)
    (hexec : ExecOk callTool res (toolUses bs1))
    (hfail : callTool t.name t.input = .error e) :
    get_table_info_loop callTool (r :: rest) messages tableInfo events =
      (events ++ [.gatewayCall messages] ++ toolCallEvents res (toolUses bs1) ++
        [.toolCall t.name t.input (.error e)], .error e) := by
  simp only [get_table_info_loop, h, ne_eq, not_true_eq_false, if_false,
    ite_false]
  rw [hcontent, runToolRequestsSchema_error callTool res t e hfail bs1 bs2 _ _ _ hexec]

/-- An executor failure inside a `tool_use` iteration of
`process_query`'s loop ends the whole loop with that error. -/
theorem process_query_loop_toolfail (callTool : Executor)
    (res : ToolUseBlock → ToolCallResult) (r : GatewayResponse)
    (rest : List GatewayResponse) (messages : List Message)
    (events : List Event) (t : ToolUseBlock) (e : String)
    (bs1 bs2 : List ContentBlock) (h : r.stopReason = "tool_use")
    (hcontent : r.message.content = bs1 ++ ContentBlock.toolUse t :: bs2)
    (hsqlt : (List.lookup "sql" t.input).isSome)
    (hexec : ExecOkQ callTool res (toolUses bs1))
    (hfail : callTool t.name t.input = .error e) :
    process_query_loop callTool (r :: rest) messages events =
      (events ++ [.gatewayCall messages] ++ toolCallEvents res (toolUses bs1) ++
        [.toolCall t.name t.input (.error e)], .error e) := by
  simp only [process_query_loop, h, ne_eq, not_true_eq_false, if_false,
    ite_false]
  rw [hcontent, runToolRequestsQuery_error callTool res t e hsqlt hfail bs1 bs2 _ _ hexec]

/-- Trace decomposition of the inner tool loop of `get_table_info`: a
successful pass appends some trace suffix, and the resulting running
`table_info` is the first text of the last successful executor call of
that suffix (or the incoming `table_info` when no call happened). -/
theorem runToolRequestsSchema_lastText (callTool : Executor) :
    ∀ (blocks : List ContentBlock) (messages : List Message) (tableInfo : String)
      (events events1 : List Event) (messages1 : List Message) (tableInfo1 : String),
    runToolRequestsSchema callTool blocks messages tableInfo events =
      (events1, .ok (messages1, tableInfo1)) →
    ∃ d, events1 = events ++ d ∧ tableInfo1 = lastToolText d tableInfo := by
  intro blocks
  induction blocks with
  | nil =>
    intro messages tableInfo events events1 messages1 tableInfo1 heq
    simp only [runToolRequestsSchema, Prod.mk.injEq, Except.ok.injEq] at heq
    obtain ⟨h1, h2, h3⟩ := heq
    exact ⟨[], by simp [← h1], by simp [lastToolText, ← h3]⟩
  | cons b bs ih =>
    intro messages tableInfo events events1 messages1 tableInfo1 heq
    cases b with
    | text s =>
      simp only [runToolRequestsSchema, ContentBlock.toolUseOf] at heq
      exact ih messages tableInfo events events1 messages1 tableInfo1 heq
    | toolResult rb =>
      simp only [runToolRequestsSchema, ContentBlock.toolUseOf] at heq
      exact ih messages tableInfo events events1 messages1 tableInfo1 heq
    | toolUse t =>
      cases hc : callTool t.name t.input with
      | error e =>
        simp only [runToolRequestsSchema, ContentBlock.toolUseOf, hc] at heq
        exact absurd (congrArg Prod.snd heq).symm (by simp)
      | ok rres =>
        cases hres : rres.content with
        | nil =>
          simp only [runToolRequestsSchema, ContentBlock.toolUseOf, hc, hres] at heq
          exact absurd (congrArg Prod.snd heq).symm (by simp)
        | cons c cs =>
          simp only [runToolRequestsSchema, ContentBlock.toolUseOf, hc, hres] at heq
          obtain ⟨d, hd, hti⟩ := ih (messages ++ [toolResultMessage t.toolUseId c.text])
            c.text (events ++ [Event.toolCall t.name t.input (Except.ok rres)])
            events1 messages1 tableInfo1 heq
          refine ⟨[Event.toolCall t.name t.input (Except.ok rres)] ++ d, ?_, ?_⟩
          · simp [hd]
          · rw [hti, lastToolText_append]
            simp [lastToolText, Event.stepTextOf, hres]

/-- Trace decomposition of `get_table_info`'s loop: a successful run
appends some trace suffix to the incoming trace, and returns as
`table_info` the first text of the last successful executor call of that
suffix (or the incoming `table_info` when no tool was ever invoked). -/
theorem get_table_info_loop_lastText (callTool : Executor) :
    ∀ (script : List GatewayResponse) (messages : List Message) (tableInfo : String)
      (events events1 : List Event) (info : String) (messages1 : List Message),
    get_table_info_loop callTool script messages tableInfo events =
      (events1, .ok (info, messages1)) →
    ∃ d, events1 = events ++ d ∧ info = lastToolText d tableInfo := by
  intro script
  induction script with
  | nil =>
    intro messages tableInfo events events1 info messages1 heq
    simp only [get_table_info_loop] at heq
    exact absurd (congrArg Prod.snd heq).symm (by simp)
  | cons r rest ih =>
    intro messages tableInfo events events1 info messages1 heq
    by_cases hstop : r.stopReason = "tool_use"
    · simp only [get_table_info_loop, hstop, ne_eq, not_true_eq_false, if_false,
        ite_false] at heq
      cases hrun : runToolRequestsSchema callTool r.message.content
          (messages ++ [r.message]) tableInfo (events ++ [Event.gatewayCall messages]) with
      | mk evs1 out =>
        cases out with
        | error e =>
          rw [hrun] at heq
          exact absurd (congrArg Prod.snd heq).symm (by simp)
        | ok p =>
          obtain ⟨ms1, ti1⟩ := p
          rw [hrun] at heq
          obtain ⟨d2, hd2, hinfo⟩ := ih ms1 ti1 evs1 events1 info messages1 heq
          obtain ⟨d1, hd1, hti1⟩ := runToolRequestsSchema_lastText callTool
            r.message.content (messages ++ [r.message]) tableInfo
            (events ++ [Event.gatewayCall messages]) evs1 ms1 ti1 hrun
          refine ⟨[Event.gatewayCall messages] ++ d1 ++ d2, ?_, ?_⟩
          · simp [hd2, hd1]
          · rw [hinfo, hti1, lastToolText_append, lastToolText_append]
            simp [lastToolText, Event.stepTextOf]
    · rw [get_table_info_loop_stop callTool r rest messages tableInfo events hstop] at heq
      simp only [Prod.mk.injEq, Except.ok.injEq] at heq
      obtain ⟨h1, h2, h3⟩ := heq
      exact ⟨[Event.gatewayCall messages], by simp [← h1],
        by simp [lastToolText, Event.stepTextOf, ← h2]⟩

/-! ## Concrete fixtures used by witnesses and counterexamples -/

/-- Example executor: answers every tool with two text items (the
second item is there to observe that only the first is used). -/
def exampleExec : Executor :=
  fun n _ => .ok { content := [{ text := "R:" ++ n }, { text := "extra" }] }

/-- The answer `exampleExec` gives for a tool block. -/
def exampleRes (t : ToolUseBlock) : ToolCallResult :=
  { content := [{ text := "R:" ++ t.name }, { text := "extra" }] }

/-- Example executor that always fails. -/
def failExec : Executor := fun _ _ => .error "connection lost"

/-- Example executor whose results have an empty content sequence. -/
def emptyContentExec : Executor := fun _ _ => .ok { content := [] }

/-- First example tool request. -/
def exampleTool1 : ToolUseBlock :=
  { toolUseId := "id1", name := "t1", input := [("sql", "SELECT 1")] }

/-- Second example tool request. -/
def exampleTool2 : ToolUseBlock :=
  { toolUseId := "id2", name := "t2", input := [("sql", "SELECT 2")] }

/-- An assistant message requesting two tools in one turn. -/
def exampleAssistantMsg : Message :=
  { role := .assistant,
    content := [.text "thinking", .toolUse exampleTool1, .toolUse exampleTool2] }

/-- A terminal assistant message. -/
def exampleFinalMsg : Message :=
  { role := .assistant, content := [.text "done"] }

/-- A gateway response requesting the two example tools. -/
def exampleToolResponse : GatewayResponse :=
  { stopReason := "tool_use", message := exampleAssistantMsg }

/-- A terminal gateway response. -/
def exampleEndResponse : GatewayResponse :=
  { stopReason := "end_turn", message := exampleFinalMsg }

/-- A two-step gateway script: request two tools, then stop. -/
def exampleScript : List GatewayResponse :=
  [exampleToolResponse, exampleEndResponse]

/-- A script whose first response is already terminal. -/
def endScript : List GatewayResponse := [exampleEndResponse]

/-- The transcript `get_table_info` builds on `exampleScript` with
`exampleExec`. -/
def exampleTranscript : List Message :=
  [initialSchemaMessage "q", exampleAssistantMsg,
   toolResultMessage "id1" "R:t1", toolResultMessage "id2" "R:t2"]

/-- The trace `get_table_info` produces on `exampleScript` with
`exampleExec`. -/
def exampleEvents : List Event :=
  [.gatewayCall [initialSchemaMessage "q"],
   .toolCall "t1" [("sql", "SELECT 1")] (.ok (exampleRes exampleTool1)),
   .toolCall "t2" [("sql", "SELECT 2")] (.ok (exampleRes exampleTool2)),
   .gatewayCall exampleTranscript]

/-! ## The claims -/

/-- C9: a call of `process_query` with an empty (falsy) prompt string
returns immediately: no transcript is constructed, no gateway call and
no executor call is issued. -/
theorem c9_empty_prompt_returns_immediately (callTool : Executor)
    (script : List GatewayResponse) (sp : String) :
    process_query callTool script "" sp = ([], .ok []) := by
  simp [process_query]

/-- C7: when the first gateway response reports a stop reason other than
`tool_use`, both loops terminate after exactly one gateway call — the
trace is one `gatewayCall` event and nothing else (in particular no
executor call), and the transcript is still just the initial user
message. -/
theorem c7_base_case_single_gateway_call (callTool : Executor)
    (r : GatewayResponse) (rest : List GatewayResponse) (q prompt sp : String)
    (h : r.stopReason ≠ "tool_use") (hp : prompt ≠ "") :
    get_table_info callTool (r :: rest) q =
      ([.gatewayCall [initialSchemaMessage q]], .ok ("", [initialSchemaMessage q])) ∧
    process_query callTool (r :: rest) prompt sp =
      ([.gatewayCall [initialQueryMessage prompt]], .ok [initialQueryMessage prompt]) := by
  constructor
  · show get_table_info_loop callTool (r :: rest) [initialSchemaMessage q] "" [] = _
    rw [get_table_info_loop_stop callTool r rest [initialSchemaMessage q] "" [] h]
    simp
  · show (if prompt = "" then ([], .ok []) else
      process_query_loop callTool (r :: rest) [initialQueryMessage prompt] []) = _
    rw [if_neg hp, process_query_loop_stop callTool r rest [initialQueryMessage prompt] [] h]
    simp

/-- C7 witness: the base case at a concrete terminal response. -/
theorem c7_base_case_single_gateway_call_witness :
    get_table_info exampleExec (exampleEndResponse :: []) "q" =
      ([.gatewayCall [initialSchemaMessage "q"]], .ok ("", [initialSchemaMessage "q"])) ∧
    process_query exampleExec (exampleEndResponse :: []) "p" "sys" =
      ([.gatewayCall [initialQueryMessage "p"]], .ok [initialQueryMessage "p"]) :=
  c7_base_case_single_gateway_call exampleExec exampleEndResponse [] "q" "p" "sys"
    (by decide) (by decide)

/-- C4 counterexample: with a gateway whose first response is already
terminal, `get_table_info` returns with the transcript still equal to
the initial user message list — the terminal assistant message
(`exampleFinalMsg`) was never appended, refuting "the assistant message
is appended to the transcript before the stop reason is examined". -/
theorem c4_counterexample :
    get_table_info exampleExec endScript "q" =
      ([.gatewayCall [initialSchemaMessage "q"]], .ok ("", [initialSchemaMessage "q"])) ∧
    exampleFinalMsg ∉ [initialSchemaMessage "q"] := by
  constructor
  · decide
  · decide

/-- C4 (amended): in both loops the gateway response's stop reason is
examined first, and the assistant message is appended only in the
`tool_use` branch; when the loop terminates, the transcript is returned
unchanged, so the terminal assistant message is not part of it. -/
theorem c4_terminal_message_not_appended (callTool : Executor)
    (r : GatewayResponse) (rest : List GatewayResponse) (messages : List Message)
    (tableInfo : String) (events : List Event) (h : r.stopReason ≠ "tool_use") :
    get_table_info_loop callTool (r :: rest) messages tableInfo events =
      (events ++ [.gatewayCall messages], .ok (tableInfo, messages)) ∧
    process_query_loop callTool (r :: rest) messages events =
      (events ++ [.gatewayCall messages], .ok messages) :=
  ⟨get_table_info_loop_stop callTool r rest messages tableInfo events h,
   process_query_loop_stop callTool r rest messages events h⟩

/-- C4 witness: the amended statement at a concrete terminal response. -/
theorem c4_terminal_message_not_appended_witness :
    get_table_info_loop exampleExec (exampleEndResponse :: []) [initialSchemaMessage "q"] "" [] =
      ([] ++ [.gatewayCall [initialSchemaMessage "q"]], .ok ("", [initialSchemaMessage "q"])) ∧
    process_query_loop exampleExec (exampleEndResponse :: []) [initialSchemaMessage "q"] [] =
      ([] ++ [.gatewayCall [initialSchemaMessage "q"]], .ok [initialSchemaMessage "q"]) :=
  c4_terminal_message_not_appended exampleExec exampleEndResponse []
    [initialSchemaMessage "q"] "" [] (by decide)

/-- C5: when cancellation is requested before a run starts, the run body
issues no gateway call and no executor call: it stops at the first
cancellation checkpoint, before the Schema Resolver and the Query
Conductor. -/
theorem c5_cancel_before_run_no_calls (callTool : Executor)
    (schemaScript queryScript : List GatewayResponse) (state : SessionState)
    (query : String) (h : state.should_cancel = true) :
    (run_body callTool schemaScript queryScript state query).all
      (fun e => !e.isGatewayCall && !e.isToolCall) = true := by
  by_cases hr : state.is_running ∧ query ≠ ""
  · simp [run_body, hr, h, RunEvent.isGatewayCall, RunEvent.isToolCall]
  · simp [run_body, hr]

/-- C1 counterexample: on a turn requesting two tools, the two
`toolResult` blocks end up in two separate single-result user messages —
the final transcript carries two `toolResult` blocks but no message
carries more than one, refuting "all of their toolResult blocks are
bundled into exactly one subsequent user message". -/
theorem c1_counterexample :
    (toolUses exampleAssistantMsg.content).length = 2 ∧
    (get_table_info exampleExec exampleScript "q").2 =
      .ok ("R:t2", exampleTranscript) ∧
    transcriptToolResultCount exampleTranscript = 2 ∧
    bundledResultMessageCount exampleTranscript = 0 := by
  refine ⟨by decide, by decide, by decide, by decide⟩

/-- C1 (amended): in a `tool_use` iteration of either loop, all
requested tools are executed, in the order their `toolUse` blocks were
returned, before the next gateway call — but each `toolResult` is
appended as its own single-result user message (one user message per
tool), not bundled into one message. -/
theorem c1_tools_executed_before_next_call_one_message_each
    (callTool : Executor) (res : ToolUseBlock → ToolCallResult)
    (r : GatewayResponse) (rest : List GatewayResponse) (messages : List Message)
    (tableInfo : String) (events : List Event) (h : r.stopReason = "tool_use")
    (hexec : ExecOk callTool res (toolUses r.message.content))
    (hsql : ∀ t ∈ toolUses r.message.content, (List.lookup "sql" t.input).isSome) :
    get_table_info_loop callTool (r :: rest) messages tableInfo events =
      get_table_info_loop callTool rest
        (messages ++ [r.message] ++
          toolResultMessages res (toolUses r.message.content))
        (List.foldl (fun _ t => firstText (res t)) tableInfo
          (toolUses r.message.content))
        (events ++ [.gatewayCall messages] ++
          toolCallEvents res (toolUses r.message.content)) ∧
    process_query_loop callTool (r :: rest) messages events =
      process_query_loop callTool rest
        (messages ++ [r.message] ++
          toolResultMessages res (toolUses r.message.content))
        (events ++ [.gatewayCall messages] ++
          toolCallEvents res (toolUses r.message.content)) :=
  ⟨get_table_info_loop_tooluse callTool res r rest messages tableInfo events h hexec,
   process_query_loop_tooluse callTool res r rest messages events h
     (fun t ht => ⟨hsql t ht, (hexec t ht).1, (hexec t ht).2⟩)⟩

/-- C1 witness: the amended statement at a concrete two-tool turn. -/
theorem c1_tools_executed_before_next_call_one_message_each_witness :
    get_table_info_loop exampleExec (exampleToolResponse :: [exampleEndResponse])
        [initialSchemaMessage "q"] "" [] =
      get_table_info_loop exampleExec [exampleEndResponse]
        ([initialSchemaMessage "q"] ++ [exampleToolResponse.message] ++
          toolResultMessages exampleRes (toolUses exampleToolResponse.message.content))
        (List.foldl (fun _ t => firstText (exampleRes t)) ""
          (toolUses exampleToolResponse.message.content))
        ([] ++ [.gatewayCall [initialSchemaMessage "q"]] ++
          toolCallEvents exampleRes (toolUses exampleToolResponse.message.content)) ∧
    process_query_loop exampleExec (exampleToolResponse :: [exampleEndResponse])
        [initialSchemaMessage "q"] [] =
      process_query_loop exampleExec [exampleEndResponse]
        ([initialSchemaMessage "q"] ++ [exampleToolResponse.message] ++
          toolResultMessages exampleRes (toolUses exampleToolResponse.message.content))
        ([] ++ [.gatewayCall [initialSchemaMessage "q"]] ++
          toolCallEvents exampleRes (toolUses exampleToolResponse.message.content)) :=
  c1_tools_executed_before_next_call_one_message_each exampleExec exampleRes
    exampleToolResponse [exampleEndResponse] [initialSchemaMessage "q"] "" []
    rfl (by unfold ExecOk; decide) (by decide)

theorem countMatchingResults_cons (i : String) (m : Message) (ms : List Message) :
    countMatchingResults i (m :: ms) =
      (m.content.filter (ContentBlock.isResultFor i)).length +
        countMatchingResults i ms := by
  simp [countMatchingResults]

theorem countMatchingResults_toolResultMessages
    (res : ToolUseBlock → ToolCallResult) (i : String) :
    ∀ ts : List ToolUseBlock,
    countMatchingResults i (toolResultMessages res ts) =
      (ts.map ToolUseBlock.toolUseId).count i := by
  intro ts
  induction ts with
  | nil => rfl
  | cons t ts ih =>
    have hmsgs : toolResultMessages res (t :: ts) =
        toolResultMessage t.toolUseId (firstText (res t)) ::
          toolResultMessages res ts := by
      simp [toolResultMessages]
    rw [hmsgs, countMatchingResults_cons, ih, List.map_cons, List.count_cons]
    by_cases hti : t.toolUseId = i
    · simp [toolResultMessage, ContentBlock.isResultFor, hti, Nat.add_comm]
    · simp [toolResultMessage, ContentBlock.isResultFor, hti]

/-- C6: in a `tool_use` iteration of either loop with pairwise distinct
`toolUse` ids, every `toolUse` block of the appended assistant message
is answered by exactly one `toolResult` block with matching `toolUseId`
among the user messages appended in the same iteration — all of which
enter the transcript before the next gateway call (the recursive call
receives the extended transcript). -/
theorem c6_every_tool_use_answered_exactly_once (callTool : Executor)
    (res : ToolUseBlock → ToolCallResult) (r : GatewayResponse)
    (rest : List GatewayResponse) (messages : List Message) (tableInfo : String)
    (events : List Event) (h : r.stopReason = "tool_use")
    (hexec : ExecOk callTool res (toolUses r.message.content))
    (hsql : ∀ t ∈ toolUses r.message.content, (List.lookup "sql" t.input).isSome)
    (hids : ((toolUses r.message.content).map ToolUseBlock.toolUseId).Nodup) :
    (∀ t ∈ toolUses r.message.content,
      countMatchingResults t.toolUseId
        (toolResultMessages res (toolUses r.message.content)) = 1) ∧
    get_table_info_loop callTool (r :: rest) messages tableInfo events =
      get_table_info_loop callTool rest
        (messages ++ [r.message] ++
          toolResultMessages res (toolUses r.message.content))
        (List.foldl (fun _ t => firstText (res t)) tableInfo
          (toolUses r.message.content))
        (events ++ [.gatewayCall messages] ++
          toolCallEvents res (toolUses r.message.content)) ∧
    process_query_loop callTool (r :: rest) messages events =
      process_query_loop callTool rest
        (messages ++ [r.message] ++
          toolResultMessages res (toolUses r.message.content))
        (events ++ [.gatewayCall messages] ++
          toolCallEvents res (toolUses r.message.content)) := by
  refine ⟨fun t ht => ?_,
    get_table_info_loop_tooluse callTool res r rest messages tableInfo events h hexec,
    process_query_loop_tooluse callTool res r rest messages events h
      (fun u hu => ⟨hsql u hu, (hexec u hu).1, (hexec u hu).2⟩)⟩
  rw [countMatchingResults_toolResultMessages]
  exact List.count_eq_one_of_mem hids
    (List.mem_map_of_mem ToolUseBlock.toolUseId ht)

/-- C6 witness: the statement at a concrete two-tool turn with distinct
ids. -/
theorem c6_every_tool_use_answered_exactly_once_witness :
    (∀ t ∈ toolUses exampleToolResponse.message.content,
      countMatchingResults t.toolUseId
        (toolResultMessages exampleRes (toolUses exampleToolResponse.message.content)) = 1) ∧
    get_table_info_loop exampleExec (exampleToolResponse :: [exampleEndResponse])
        [initialSchemaMessage "q"] "" [] =
      get_table_info_loop exampleExec [exampleEndResponse]
        ([initialSchemaMessage "q"] ++ [exampleToolResponse.message] ++
          toolResultMessages exampleRes (toolUses exampleToolResponse.message.content))
        (List.foldl (fun _ t => firstText (exampleRes t)) ""
          (toolUses exampleToolResponse.message.content))
        ([] ++ [.gatewayCall [initialSchemaMessage "q"]] ++
          toolCallEvents exampleRes (toolUses exampleToolResponse.message.content)) ∧
    process_query_loop exampleExec (exampleToolResponse :: [exampleEndResponse])
        [initialSchemaMessage "q"] [] =
      process_query_loop exampleExec [exampleEndResponse]
        ([initialSchemaMessage "q"] ++ [exampleToolResponse.message] ++
          toolResultMessages exampleRes (toolUses exampleToolResponse.message.content))
        ([] ++ [.gatewayCall [initialSchemaMessage "q"]] ++
          toolCallEvents exampleRes (toolUses exampleToolResponse.message.content)) :=
  c6_every_tool_use_answered_exactly_once exampleExec exampleRes
    exampleToolResponse [exampleEndResponse] [initialSchemaMessage "q"] "" []
    rfl (by unfold ExecOk; decide) (by decide) (by decide)

/-- C3: a successful run of `get_table_info` returns the first text of
the last tool result of its trace, verbatim — not the assistant's
natural-language text; and when no tool was ever invoked (no executor
call in the trace), the returned schema description is the empty string,
not an error. -/
theorem c3_returns_last_tool_result_text (callTool : Executor)
    (script : List GatewayResponse) (q : String) (events : List Event)
    (info : String) (transcript : List Message)
    (h : get_table_info callTool script q = (events, .ok (info, transcript))) :
    info = lastToolText events "" ∧
    ((∀ e ∈ events, e.isToolCall = false) → info = "") := by
  obtain ⟨d, hd, hinfo⟩ := get_table_info_loop_lastText callTool script
    [initialSchemaMessage q] "" [] events info transcript h
  have hde : events = d := by simpa using hd
  have h1 : info = lastToolText events "" := by rw [hinfo, hde]
  exact ⟨h1, fun hno => by rw [h1]; exact lastToolText_no_tool events "" hno⟩

/-- C3 witness: the concrete two-tool run returns the last tool result's
text. -/
theorem c3_returns_last_tool_result_text_witness :
    "R:t2" = lastToolText exampleEvents "" ∧
    ((∀ e ∈ exampleEvents, e.isToolCall = false) → "R:t2" = "") :=
  c3_returns_last_tool_result_text exampleExec exampleScript "q" exampleEvents
    "R:t2" exampleTranscript (by decide)

/-- C8: an executor failure on a requested tool propagates out of either
loop as the loop's error: the loop result is that very error (nothing is
caught), the trace ends at the single failing call (no retry), and no
further gateway call happens. -/
theorem c8_executor_failure_propagates (callTool : Executor)
    (res : ToolUseBlock → ToolCallResult) (r : GatewayResponse)
    (rest : List GatewayResponse) (messages : List Message) (tableInfo : String)
    (events events2 : List Event) (t : ToolUseBlock) (e : String)
    (bs1 bs2 : List ContentBlock) (h : r.stopReason = "tool_use")
    (hcontent : r.message.content = bs1 ++ ContentBlock.toolUse t :: bs2)
    (hexec : ExecOk callTool res (toolUses bs1))
    (hsql : ∀ u ∈ toolUses bs1, (List.lookup "sql" u.input).isSome)
    (hsqlt : (List.lookup "sql" t.input).isSome)
    (hfail : callTool t.name t.input = .error e) :
    get_table_info_loop callTool (r :: rest) messages tableInfo events =
      (events ++ [.gatewayCall messages] ++ toolCallEvents res (toolUses bs1) ++
        [.toolCall t.name t.input (.error e)], .error e) ∧
    process_query_loop callTool (r :: rest) messages events2 =
      (events2 ++ [.gatewayCall messages] ++ toolCallEvents res (toolUses bs1) ++
        [.toolCall t.name t.input (.error e)], .error e) :=
  ⟨get_table_info_loop_toolfail callTool res r rest messages tableInfo events
      t e bs1 bs2 h hcontent hexec hfail,
   process_query_loop_toolfail callTool res r rest messages events2
      t e bs1 bs2 h hcontent hsqlt
      (fun u hu => ⟨hsql u hu, (hexec u hu).1, (hexec u hu).2⟩) hfail⟩

/-- C8 witness: a failing executor at a concrete tool request. -/
theorem c8_executor_failure_propagates_witness :
    get_table_info_loop failExec (exampleToolResponse :: [exampleEndResponse])
        [initialSchemaMessage "q"] "" [] =
      ([] ++ [.gatewayCall [initialSchemaMessage "q"]] ++
        toolCallEvents exampleRes (toolUses [ContentBlock.text "thinking"]) ++
        [.toolCall exampleTool1.name exampleTool1.input (.error "connection lost")],
       .error "connection lost") ∧
    process_query_loop failExec (exampleToolResponse :: [exampleEndResponse])
        [initialSchemaMessage "q"] [] =
      ([] ++ [.gatewayCall [initialSchemaMessage "q"]] ++
        toolCallEvents exampleRes (toolUses [ContentBlock.text "thinking"]) ++
        [.toolCall exampleTool1.name exampleTool1.input (.error "connection lost")],
       .error "connection lost") :=
  c8_executor_failure_propagates failExec exampleRes exampleToolResponse
    [exampleEndResponse] [initialSchemaMessage "q"] "" [] []
    exampleTool1 "connection lost" [ContentBlock.text "thinking"]
    [ContentBlock.toolUse exampleTool2] rfl rfl (by unfold ExecOk; decide) (by decide)
    (by decide) rfl

/-- C10: in either loop's tool step, only the first element of the
executor result's content is used: the appended user message carries
exactly one `toolResult` block with exactly one text block, equal to the
first content element's text (any further elements are discarded and do
not reach the transcript), and the step fails with an index error when
the content sequence is empty. -/
theorem c10_only_first_content_item_used (callTool : Executor) (t : ToolUseBlock)
    (bs : List ContentBlock) (messages : List Message) (tableInfo : String)
    (events : List Event) (res : ToolCallResult)
    (hcall : callTool t.name t.input = .ok res)
    (hsql : (List.lookup "sql" t.input).isSome) :
    (res.content = [] →
      runToolRequestsSchema callTool (ContentBlock.toolUse t :: bs) messages
          tableInfo events =
        (events ++ [.toolCall t.name t.input (.ok res)],
         .error "IndexError: list index out of range") ∧
      runToolRequestsQuery callTool (ContentBlock.toolUse t :: bs) messages events =
        (events ++ [.toolCall t.name t.input (.ok res)],
         .error "IndexError: list index out of range")) ∧
    (∀ c cs, res.content = c :: cs →
      runToolRequestsSchema callTool (ContentBlock.toolUse t :: bs) messages
          tableInfo events =
        runToolRequestsSchema callTool bs
          (messages ++ [toolResultMessage t.toolUseId c.text]) c.text
          (events ++ [.toolCall t.name t.input (.ok res)]) ∧
      runToolRequestsQuery callTool (ContentBlock.toolUse t :: bs) messages events =
        runToolRequestsQuery callTool bs
          (messages ++ [toolResultMessage t.toolUseId c.text])
          (events ++ [.toolCall t.name t.input (.ok res)]) ∧
      (toolResultMessage t.toolUseId c.text).content =
        [.toolResult { toolUseId := t.toolUseId, content := [{ text := c.text }] }]) := by
  obtain ⟨sq, hsq⟩ := Option.isSome_iff_exists.mp hsql
  constructor
  · intro hres
    constructor
    · simp only [runToolRequestsSchema, ContentBlock.toolUseOf, hcall, hres]
    · simp only [runToolRequestsQuery, ContentBlock.toolUseOf, hsq, hcall, hres]
  · intro c cs hres
    refine ⟨?_, ?_, rfl⟩
    · simp only [runToolRequestsSchema, ContentBlock.toolUseOf, hcall, hres]
    · simp only [runToolRequestsQuery, ContentBlock.toolUseOf, hsq, hcall, hres]

/-- C10 witness: the empty-content failure and the first-item-only step
at concrete inputs. -/
theorem c10_only_first_content_item_used_witness :
    (runToolRequestsSchema emptyContentExec [ContentBlock.toolUse exampleTool1]
        [] "" [] =
      ([] ++ [.toolCall exampleTool1.name exampleTool1.input (.ok { content := [] })],
       .error "IndexError: list index out of range") ∧
     runToolRequestsQuery emptyContentExec [ContentBlock.toolUse exampleTool1] [] [] =
      ([] ++ [.toolCall exampleTool1.name exampleTool1.input (.ok { content := [] })],
       .error "IndexError: list index out of range")) ∧
    (runToolRequestsSchema exampleExec [ContentBlock.toolUse exampleTool1] [] "" [] =
      runToolRequestsSchema exampleExec []
        ([] ++ [toolResultMessage exampleTool1.toolUseId "R:t1"]) "R:t1"
        ([] ++ [.toolCall exampleTool1.name exampleTool1.input
          (.ok (exampleRes exampleTool1))]) ∧
     runToolRequestsQuery exampleExec [ContentBlock.toolUse exampleTool1] [] [] =
      runToolRequestsQuery exampleExec []
        ([] ++ [toolResultMessage exampleTool1.toolUseId "R:t1"])
        ([] ++ [.toolCall exampleTool1.name exampleTool1.input
          (.ok (exampleRes exampleTool1))]) ∧
     (toolResultMessage exampleTool1.toolUseId "R:t1").content =
       [.toolResult { toolUseId := exampleTool1.toolUseId,
                      content := [{ text := "R:t1" }] }]) :=
  ⟨(c10_only_first_content_item_used emptyContentExec exampleTool1 [] [] "" []
      { content := [] } rfl (by decide)).1 rfl,
   (c10_only_first_content_item_used exampleExec exampleTool1 [] [] "" []
      (exampleRes exampleTool1) rfl (by decide)).2
     { text := "R:t1" } [{ text := "extra" }] rfl⟩

/-- C2 counterexample: the input `"[]"` parses as JSON (an empty array),
so the claim's "otherwise return the original input text" case applies —
but `format_sql_result` falls through its `try` body and returns Python
`None`, not the original text. -/
theorem c2_counterexample :
    format_sql_result "[]" = FormatResult.none ∧
    format_sql_result "[]" ≠ FormatResult.text "[]" := by
  refine ⟨rfl, fun hcontra => ?_⟩
  exact FormatResult.noConfusion
    ((rfl : format_sql_result "[]" = FormatResult.none).symm.trans hcontra)

/-- C2 (amended): `format_sql_result` is a total deterministic function
of its input (a Lean function by construction, mirroring the bare
`except` of the source).  If the input parses as a non-empty JSON array
of records it returns the tabular structure whose rows are the records
in order and whose columns are the record keys in order of first
appearance; if the input fails to parse as JSON it returns the original
text unchanged; if the input parses as JSON but not as a non-empty
array, it returns no value (Python `None`), not the original text. -/
theorem c2_format_sql_result_cases (s : String) :
    (∀ e, jsonParse s = .error e → format_sql_result s = .text s) ∧
    (∀ elems recs, jsonParse s = .ok (Json.arr elems) → elems ≠ [] →
      allRecords elems = some recs →
      format_sql_result s = .table (mkDataFrame recs) ∧
      (mkDataFrame recs).columns = recordColumns recs ∧
      (mkDataFrame recs).rows =
        recs.map (fun rec => (recordColumns recs).map (fun c => List.lookup c rec))) ∧
    (jsonParse s = .ok (Json.arr []) → format_sql_result s = FormatResult.none) ∧
    (∀ v, jsonParse s = .ok v → (∀ l, v ≠ Json.arr l) →
      format_sql_result s = FormatResult.none) := by
  refine ⟨?_, ?_, ?_, ?_⟩
  · intro e he
    simp [format_sql_result, he]
  · intro elems recs hok hne hrecs
    have hlen : 0 < elems.length := by
      cases elems with
      | nil => exact absurd rfl hne
      | cons a l => simp
    exact ⟨by simp [format_sql_result, hok, hlen, hrecs], rfl, rfl⟩
  · intro hok
    simp [format_sql_result, hok]
  · intro v hok hnotarr
    cases v with
    | arr l => exact absurd rfl (hnotarr l)
    | null => simp [format_sql_result, hok]
    | bool b => simp [format_sql_result, hok]
    | num lit => simp [format_sql_result, hok]
    | str s1 => simp [format_sql_result, hok]
    | obj m => simp [format_sql_result, hok]

/-- The record list parsed from the C2 witness input. -/
def exampleRecords : List (List (String × Json)) := [[("a", Json.num "1")]]

/-- C2 witness: the three specified cases at concrete inputs — a
non-JSON input comes back unchanged, a one-record array becomes a table,
and a JSON non-array yields no value. -/
theorem c2_format_sql_result_cases_witness :
    format_sql_result "not json" = FormatResult.text "not json" ∧
    format_sql_result "[\x7b\"a\": 1\x7d]" =
      FormatResult.table (mkDataFrame exampleRecords) ∧
    format_sql_result "5" = FormatResult.none :=
  ⟨(c2_format_sql_result_cases "not json").1 "Expecting value" rfl,
   ((c2_format_sql_result_cases "[\x7b\"a\": 1\x7d]").2.1
      [Json.obj [("a", Json.num "1")]] exampleRecords rfl (by simp) rfl).1,
   (c2_format_sql_result_cases "5").2.2.2 (Json.num "5") rfl
     (fun l h => Json.noConfusion h)⟩

/-- C5 witness: a cancelled run at concrete inputs. -/
theorem c5_cancel_before_run_no_calls_witness :
    (run_body exampleExec exampleScript exampleScript
      { is_running := true, should_cancel := true } "q").all
      (fun e => !e.isGatewayCall && !e.isToolCall) = true :=
  c5_cancel_before_run_no_calls exampleExec exampleScript exampleScript
    { is_running := true, should_cancel := true } "q" (by decide)

